import Mathlib

/-!
Verification of the Rubin weather forecast service (Cloudflare worker).

The development shallowly embeds the worker code: JS strings are lists of
characters, JS numbers that hold timestamps are integers (milliseconds), and
other JS numbers are rationals; a JS value that may be `null`, `undefined` or
`NaN` is an `Option`.  A thrown exception is an `Except.error`.
-/

namespace RubinWeather

/-- JS strings, modelled as character lists so every operation is structural. -/
abbrev Str := List Char

/-- Whitespace recognised by `String.prototype.trim` (the common subset). -/
def isWsChar (c : Char) : Bool := c = ' ' || c = '\t' || c = '\n' || c = '\r'

/-- Model of `s.trim()`. -/
def jsTrim (s : Str) : Str :=
  ((s.dropWhile isWsChar).reverse.dropWhile isWsChar).reverse

/-- Model of `s.toLowerCase()` (ASCII). -/
def jsToLower (s : Str) : Str := s.map Char.toLower

/-- Model of `s.split(sep)` for a one-character separator. -/
def jsSplit (sep : Char) : Str → List Str
  | [] => [[]]
  | c :: rest =>
    match jsSplit sep rest with
    | [] => [[]]
    | h :: t => if c = sep then [] :: h :: t else (c :: h) :: t

/-- Whether `n` begins the list `h` (helper for substring search). -/
def pfxB : Str → Str → Bool
  | [], _ => true
  | _ :: _, [] => false
  | a :: as, b :: bs => if a = b then pfxB as bs else false

/-- Model of `hay.includes(needle)`. -/
def jsIncludes : Str → Str → Bool
  | h, n => if pfxB n h then true else
    match h with
    | [] => false
    | _ :: t => jsIncludes t n

/-!
Snapshot store and HTTP service (src/cloudflare_worker.js).

The KV store holds two independent keys; `none` means the key was never
written.  `Resp` is the status/body pair of a `Response`.
-/

/-- The two KV slots used by the worker. -/
structure Store where
  latestCsv : Option Str
  latestCsvTime : Option Str
deriving DecidableEq

/-- An HTTP response (status code and body). -/
structure Resp where
  status : Nat
  body : Str
deriving DecidableEq

/-- JS truthiness of a `string | null` value: null and the empty string are falsy. -/
def jsTruthyOpt : Option Str → Bool
  | none => false
  | some s => s ≠ []

/-- Handler of `POST /api/update` (src/cloudflare_worker.js lines 6-18).
`ctype` is the Content-Type header, `hdrTs` the X-Upload-Timestamp header and
`serverNow` the serialised server receipt time. -/
def uploadHandler (ctype : Option Str) (body : Str) (hdrTs : Option Str)
    (serverNow : Str) (st : Store) : Store × Resp :=
  if jsTruthyOpt ctype = false ∨ jsIncludes (ctype.getD []) ("text/csv".data) = false then
    (st, ⟨400, "Invalid content type. Expected text/csv.".data⟩)
  else
    let uploadTime : Str := match hdrTs with
      | some t => if t = [] then serverNow else t
      | none => serverNow
    ({ latestCsv := some body, latestCsvTime := some uploadTime },
     ⟨200, "CSV uploaded successfully with timestamp stored.".data⟩)

/-- Handler of `GET /api/forecast` (src/cloudflare_worker.js lines 421-430). -/
def forecastHandler (st : Store) : Resp :=
  if jsTruthyOpt st.latestCsv then ⟨200, st.latestCsv.getD []⟩
  else ⟨404, "No forecast uploaded yet.".data⟩

/-!
Row parser (the CSV-parsing script served by the worker,
src/cloudflare_worker.js lines 222-254).
-/

/-- Digits of a literal read as a natural number. -/
def digitsToNat (l : List Char) : Nat :=
  l.foldl (fun a c => 10 * a + (c.toNat - 48)) 0

/-- An exact decimal number `m / 10 ^ e`: the value a numeric cell denotes.
This replaces binary floating point by exact decimal arithmetic. -/
structure Dec where
  m : Int
  e : Nat
deriving DecidableEq

/-- The rational value of a decimal number (used in statements). -/
def Dec.toRat (d : Dec) : ℚ := (d.m : ℚ) / (10 : ℚ) ^ d.e

/-- Model of the builtin `parseFloat`: skip leading whitespace, read an
optional sign, integer digits, an optional fraction and an optional exponent,
taking the longest valid numeric prefix; `none` models the `NaN` result.
The `Infinity` literal, which exact decimal arithmetic cannot represent, is
outside the model. -/
def jsParseFloat (s : Str) : Option Dec :=
  let l := s.dropWhile isWsChar
  let sign : Int := match l with
    | '-' :: _ => -1
    | _ => 1
  let l1 : Str := match l with
    | '-' :: r => r
    | '+' :: r => r
    | _ => l
  let ip := l1.takeWhile Char.isDigit
  let l2 := l1.drop ip.length
  let fp : Str := match l2 with
    | '.' :: r => r.takeWhile Char.isDigit
    | _ => []
  let l3 : Str := match l2 with
    | '.' :: r => r.drop fp.length
    | _ => l2
  if ip = [] ∧ fp = [] then none
  else
    let ex : Int := match l3 with
      | c :: r =>
        if c = 'e' ∨ c = 'E' then
          let es : Int := match r with
            | '-' :: _ => -1
            | _ => 1
          let r1 : Str := match r with
            | '-' :: t => t
            | '+' :: t => t
            | _ => r
          let ed := r1.takeWhile Char.isDigit
          if ed = [] then 0 else es * (digitsToNat ed : Int)
        else 0
      | [] => 0
    let m0 : Int := sign * (digitsToNat (ip ++ fp) : Int)
    let net : Int := ex - (fp.length : Int)
    if 0 ≤ net then some ⟨m0 * 10 ^ net.toNat, 0⟩ else some ⟨m0, (-net).toNat⟩

/-- Integer form of `+v.toFixed(1)`: the numeric cell value is kept as the
whole number of tenths, rounding to the nearest tenth.  `toFixed` takes the
absolute value first (prepending the sign afterwards) and picks the larger
candidate on a tie, so ties round away from zero. -/
def roundTenths (d : Dec) : Int :=
  let a : Nat := d.m.natAbs
  let h : Nat := (20 * a + 10 ^ d.e) / (2 * 10 ^ d.e)
  if d.m < 0 then -(h : Int) else (h : Int)

/-- The `safe` helper of the page script: `parseFloat`, `NaN` mapped to null,
otherwise the value rounded to one decimal place (stored in tenths).  The
argument is the cell, `none` when it is `undefined` (index out of range). -/
def safe (v : Option Str) : Option Int :=
  match v with
  | none => none
  | some s =>
    match jsParseFloat s with
    | none => none
    | some n => some (roundTenths n)

/-- Model of `header.indexOf(name)`: the first matching position, `-1` when
the name is absent. -/
def jsIndexOf (header : List Str) (n : Str) : Int :=
  match List.findIdx? (fun h => h = n) header with
  | some i => (i : Int)
  | none => -1

/-- Model of `c[i]` on an array of strings: `undefined` (`none`) outside the
array bounds, in particular at index `-1`. -/
def jsGet (c : List Str) (i : Int) : Option Str :=
  if h : 0 ≤ i ∧ i.toNat < c.length then some (c.get ⟨i.toNat, h.2⟩) else none

/-- Comparison `ts <= now` on a JS number that may be `NaN` (`none`):
any comparison against `NaN` is false. -/
def jsLe (ts : Option Int) (now : Int) : Bool :=
  match ts with
  | some v => v ≤ now
  | none => false

/-- One parsed data row: the timestamp (`none` models an invalid instant) and
the seven numeric series entries, in the order the script pushes them. -/
structure Row where
  ts : Option Int
  tmean : Option Int
  tprophet : Option Int
  tmin : Option Int
  tmax : Option Int
  tpmin : Option Int
  tpmax : Option Int
  trend : Option Int
deriving DecidableEq

/-- The accumulator of the `forEach` over data lines. -/
structure ParseState where
  latestPastTs : Option Int
  sunset : List (Option Int)
  sunrise : List (Option Int)
  rows : List Row
deriving DecidableEq

/-- Initial parse state: empty arrays, `latestPastTs = null`. -/
def initState : ParseState := ⟨none, [], [], []⟩

/-- The row built from the cells of one line (the seven `push` calls). -/
def rowOf (dateParse : Str → Option Int) (header : List Str) (l : Str) : Row :=
  let c := jsSplit ',' l
  let ts := (jsGet c (jsIndexOf header ("timestamp".data))).bind dateParse
  { ts := ts
    tmean := safe (jsGet c (jsIndexOf header ("tmean".data)))
    tprophet := safe (jsGet c (jsIndexOf header ("tprophet".data)))
    tmin := safe (jsGet c (jsIndexOf header ("tmin".data)))
    tmax := safe (jsGet c (jsIndexOf header ("tmax".data)))
    tpmin := safe (jsGet c (jsIndexOf header ("tpmin".data)))
    tpmax := safe (jsGet c (jsIndexOf header ("tpmax".data)))
    trend := safe (jsGet c (jsIndexOf header ("trend-weekly".data))) }

/-- Body of the `forEach` for one line (src/cloudflare_worker.js lines
236-250).  `dateParse` models the builtin `new Date(s).getTime()` with `none`
for an invalid date, `now` is `Date.now()`.  The unguarded
`c[idx('sunset')].toLowerCase()` throws a TypeError when the cell is
`undefined`, modelled by `Except.error`. -/
def step (dateParse : Str → Option Int) (now : Int) (header : List Str)
    (st : ParseState) (l : Str) : Except Unit ParseState :=
  if jsTrim l = [] then .ok st
  else
    let c := jsSplit ',' l
    let ts := (jsGet c (jsIndexOf header ("timestamp".data))).bind dateParse
    let st1 := if jsLe ts now then { st with latestPastTs := ts } else st
    match jsGet c (jsIndexOf header ("sunset".data)) with
    | none => .error ()
    | some sv =>
      let st2 := if jsToLower sv = "true".data then
        { st1 with sunset := st1.sunset ++ [ts] } else st1
      let st3 := match jsGet c (jsIndexOf header ("sunrise".data)) with
        | some rv =>
          if rv ≠ [] ∧ jsToLower rv = "true".data then
            { st2 with sunrise := st2.sunrise ++ [ts] } else st2
        | none => st2
      .ok { st3 with rows := st3.rows ++ [rowOf dateParse header l] }

/-- The whole parse: trim the text, split into lines, take the first line as
the header and fold the remaining lines. -/
def parseCSV (dateParse : Str → Option Int) (now : Int) (csv : Str) :
    Except Unit ParseState :=
  match jsSplit '\n' (jsTrim csv) with
  | [] => .ok initState
  | h :: ls => List.foldlM (step dateParse now (jsSplit ',' h)) initState ls

/-!
Metrics engine (night bands, twilight values, src/cloudflare_worker.js
lines 259-365) and freshness badge (lines 183-193 and 252-254).
-/

/-- Subtraction on JS numbers that may be `NaN`. -/
def jsSub2 : Option Int → Option Int → Option Int
  | some a, some b => some (a - b)
  | _, _ => none

/-- Addition of a plain number to a JS number that may be `NaN`. -/
def jsAdd2 : Option Int → Int → Option Int
  | some a, b => some (a + b)
  | none, _ => none

/-- The global night duration in milliseconds (src/cloudflare_worker.js lines
259-270): from the last sunrise and last sunset when the day duration lies
strictly between 0 and 24 hours, otherwise a fixed 12 hours. -/
def nightMs (sunrise sunset : List (Option Int)) : Int :=
  let base : Int :=
    match sunrise.getLast?, sunset.getLast? with
    | some lr, some ls =>
      match jsSub2 ls lr with
      | some d => if 0 < d ∧ d < 86400000 then 86400000 - d else 0
      | none => 0
    | _, _ => 0
  if base = 0 then 43200000 else base

/-- The night plot bands (src/cloudflare_worker.js lines 272-280): one
`(from, to)` interval per sunset instant. -/
def nightBands (sunrise sunset : List (Option Int)) : List (Option Int × Option Int) :=
  sunset.map (fun sun => (sun, jsAdd2 sun (nightMs sunrise sunset)))

/-- The absolute distance `Math.abs(ts - target)`; `none` models `NaN`. -/
def jsAbsSub (ts : Option Int) (target : Int) : Option Nat :=
  match ts with
  | some v => some (v - target).natAbs
  | none => none

/-- Strict `<` on JS numbers that may be `NaN`: false whenever either side is
`NaN`. -/
def jsLtAbs : Option Nat → Option Nat → Bool
  | some a, some b => a < b
  | _, _ => false

/-- Element read `a[bestIdx][0]` of the reduce callback. -/
def jsGetTs (arr : List (Option Int)) (i : Nat) : Option Int :=
  (arr.get? i).getD none

/-- The `reduce` loop of `closestIdx` over the remaining elements, carrying
the running index and the current best index. -/
def closestIdxGo (arr : List (Option Int)) (target : Int) :
    List (Option Int) → Nat → Nat → Nat
  | [], _, best => best
  | ts :: rest, i, best =>
    closestIdxGo arr target rest (i + 1)
      (if jsLtAbs (jsAbsSub ts target) (jsAbsSub (jsGetTs arr best) target)
       then i else best)

/-- `closestIdx` (src/cloudflare_worker.js lines 347-351): the index of the
row whose timestamp is nearest to the target, by a `reduce` starting from
index 0 that replaces the best index only on a strictly smaller distance. -/
def closestIdx (arr : List (Option Int)) (target : Int) : Nat :=
  closestIdxGo arr target arr 0 0

/-- Civil date to days since the Unix epoch (the day-numbering arithmetic
behind `Date.UTC`; Gregorian calendar, month `m` is 1-based). -/
def daysFromCivil (y : Int) (m : Nat) (d : Nat) : Int :=
  let y1 : Int := if m ≤ 2 then y - 1 else y
  let era : Int := Int.tdiv (if 0 ≤ y1 then y1 else y1 - 399) 400
  let yoe : Int := y1 - era * 400
  let mp : Int := ((m : Int) + 9) % 12
  let doy : Int := Int.tdiv (153 * mp + 2) 5 + (d : Int) - 1
  let doe : Int := yoe * 365 + Int.tdiv yoe 4 - Int.tdiv yoe 100 + doy
  era * 146097 + doe - 719468

/-- Model of `Date.UTC(y, m0, d, hour, minute)` in milliseconds, with the
0-based month in range and the hour free to lie outside `0..23` (it is folded
linearly into the day, exactly as `MakeTime` does). -/
def dateUTCms (y : Int) (m0 : Nat) (d : Nat) (hour : Int) (minute : Int) : Int :=
  daysFromCivil y (m0 + 1) d * 86400000 + hour * 3600000 + minute * 60000

/-- The wall-clock reading of an instant in the observation timezone, as
`Intl.DateTimeFormat(..., { timeZone: 'America/Santiago' }).formatToParts`
exposes it.  The timezone database is a builtin, so the formatter is a
parameter of the model. -/
structure LocalView where
  year : Int
  month : Nat
  day : Nat
  hour : Nat
  minute : Nat
deriving DecidableEq

/-- A timezone formatter: the local wall-clock view of each UTC instant. -/
abbrev TzFmt := Int → LocalView

/-- The list of offset guesses `-16, ..., 16` tried by the brute-force
search. -/
def guessList : List Int := (List.range 33).map (fun k => (k : Int) - 16)

/-- The search loop of `santiagoLocalTimeToUTC` (src/unnamed/part_001 lines
272-279): try each guess in order and return the first test instant whose
local hour, minute and day of month match. -/
def findGuess (tz : TzFmt) (year : Int) (month0 : Nat) (day : Nat)
    (hour : Nat) (minute : Nat) : List Int → Option Int
  | [] => none
  | g :: gs =>
    let testUTC := dateUTCms year month0 day ((hour : Int) - g) minute
    let v := tz testUTC
    if v.hour = hour ∧ v.minute = minute ∧ v.day = day then some testUTC
    else findGuess tz year month0 day hour minute gs

/-- `santiagoLocalTimeToUTC` (src/unnamed/part_001 lines 262-282): the UTC
instant showing a given wall time in the observation timezone, found by the
bounded brute-force search, with `Date.now()` as the fallback. -/
def santiagoLocalTimeToUTC (tz : TzFmt) (nowMs : Int) (year : Int)
    (month0 : Nat) (day : Nat) (hour : Nat) (minute : Nat) : Int :=
  match findGuess tz year month0 day hour minute guessList with
  | some t => t
  | none => nowMs

/-- Twilight instant selection (src/cloudflare_worker.js lines 335-346): the
last sunset instant when one exists, otherwise 18:00 local time of the
current date resolved through the offset search. -/
def twilightUTC (tz : TzFmt) (nowMs : Int) (sunset : List (Option Int)) :
    Option Int :=
  match sunset.getLast? with
  | some s => s
  | none =>
    let p := tz nowMs
    some (santiagoLocalTimeToUTC tz nowMs p.year (p.month - 1) p.day 18 0)

/-- The twilight uncertainty `tpmax[i][1] - tpmin[i][1]` in tenths
(src/cloudflare_worker.js line 355).  JS coerces `null` to `0` in the
subtraction; `NaN` cannot occur because `safe` never produces it. -/
def uncTwilight (tpmaxV tpminV : Option Int) : Int :=
  tpmaxV.getD 0 - tpminV.getD 0

/-- Whether the uncertainty is displayed (src/cloudflare_worker.js lines
360-363): `isFinite(u) && u > 0`.  Values here are finite integers of tenths,
so finiteness always holds and only positivity decides. -/
def uncShown (tpmaxV tpminV : Option Int) : Bool :=
  0 < uncTwilight tpmaxV tpminV

/-- The badge timestamp `latestPastTs ?? tprophet.at(0)[0]`
(src/cloudflare_worker.js line 253).  The outer `Option` models the thrown
TypeError when both `latestPastTs` is null and the row list is empty. -/
def badgeTs (latestPastTs : Option Int) (rows : List Row) : Option (Option Int) :=
  match latestPastTs with
  | some v => some (some v)
  | none =>
    match rows.head? with
    | some r => some r.ts
    | none => none

/-- Whole minutes shown by the badge:
`Math.floor(Math.abs(Date.now() - latestTs) / 60000)`. -/
def badgeMins (now ts : Int) : Nat := (now - ts).natAbs / 60000

/-- Staleness colouring of the badge: red exactly when more than 30 minutes
have elapsed (src/cloudflare_worker.js line 188). -/
def isStale (mins : Nat) : Bool := 30 < mins

end RubinWeather

deriving instance DecidableEq for Except

/-- Sanity example: round trip on a small store. -/
example :
    (RubinWeather.forecastHandler
      (RubinWeather.uploadHandler (some ("text/csv".data)) ("a,b".data) none []
        ⟨none, none⟩).1).status = 200 := by decide

example :
    RubinWeather.jsParseFloat ("12.37abc".data) = some ⟨1237, 2⟩ := by decide

example : RubinWeather.safe (some ("12.37".data)) = some 124 := by decide

example : RubinWeather.safe (some ("abc".data)) = none := by decide

example : RubinWeather.safe (some ("-2.5e1".data)) = some (-250) := by decide

example : RubinWeather.safe (some ("1.25".data)) = some 13 := by decide

example : RubinWeather.safe (some ("-1.25".data)) = some (-13) := by decide

example :
    RubinWeather.parseCSV (fun s => if s = "a".data then some 100 else none) 200
      ("timestamp,sunset\na,false\n\na,TRUE".data) =
    .ok ⟨some 100, [some 100], [],
      [⟨some 100, none, none, none, none, none, none, none⟩,
       ⟨some 100, none, none, none, none, none, none, none⟩]⟩ := by decide

example :
    RubinWeather.parseCSV (fun _ => some 0) 0 ("timestamp\nx".data) =
    .error () := by decide

namespace RubinWeather

/-- An inclusion into a non-empty pattern forces a non-empty string. -/
theorem jsIncludes_ne_nil {ct : Str} {c : Char} {t : Str}
    (h : jsIncludes ct (c :: t) = true) : ct ≠ [] := by
  intro hct
  subst hct
  simp [jsIncludes, pfxB] at h

/-- C1, counterexample to the claimed equivalence: uploading an *empty* body
with a CSV content type succeeds and stores a snapshot, yet the immediately
following retrieval answers 404 even though a snapshot has been stored. -/
theorem claim1_cex :
    (uploadHandler (some ("text/csv".data)) [] none ("t".data)
        ⟨none, none⟩).2.status = 200 ∧
    (uploadHandler (some ("text/csv".data)) [] none ("t".data)
        ⟨none, none⟩).1.latestCsv = some [] ∧
    (forecastHandler
      (uploadHandler (some ("text/csv".data)) [] none ("t".data)
        ⟨none, none⟩).1).status = 404 := by
  decide

/-- C1, amended: uploading a *non-empty* raw text with a declared CSV content
type and immediately retrieving it returns exactly that text with status 200;
in general the retrieval serves the snapshot verbatim, and it answers 404
exactly when no snapshot has ever been stored or the stored snapshot is the
empty string. -/
theorem claim1_roundtrip :
    (∀ (ctype body : Str) (hdrTs : Option Str) (snow : Str) (st : Store),
      jsIncludes ctype ("text/csv".data) = true → body ≠ [] →
      (uploadHandler (some ctype) body hdrTs snow st).2.status = 200 ∧
      forecastHandler (uploadHandler (some ctype) body hdrTs snow st).1 =
        ⟨200, body⟩) ∧
    (∀ st : Store,
      (∀ csv, st.latestCsv = some csv → csv ≠ [] →
        forecastHandler st = ⟨200, csv⟩) ∧
      ((forecastHandler st).status = 404 ↔
        st.latestCsv = none ∨ st.latestCsv = some [])) := by
  constructor
  · intro ctype body hdrTs snow st hinc hbody
    have hct : ctype ≠ [] := jsIncludes_ne_nil hinc
    simp [uploadHandler, jsTruthyOpt, hinc, hct, forecastHandler, hbody]
  · intro st
    constructor
    · intro csv hcsv hne
      simp [forecastHandler, jsTruthyOpt, hcsv, hne]
    · match h : st.latestCsv with
      | none => simp [forecastHandler, jsTruthyOpt, h]
      | some [] => simp [forecastHandler, jsTruthyOpt, h]
      | some (c :: t) => simp [forecastHandler, jsTruthyOpt, h]

/-- C1, witness: a concrete non-empty upload round-trips byte for byte. -/
theorem claim1_roundtrip_witness :
    jsIncludes ("text/csv".data) ("text/csv".data) = true ∧
    ("ab".data : Str) ≠ [] ∧
    forecastHandler
      (uploadHandler (some ("text/csv".data)) ("ab".data) none ("t".data)
        ⟨none, none⟩).1 = ⟨200, "ab".data⟩ :=
  ⟨by decide, by decide,
    (claim1_roundtrip.1 ("text/csv".data) ("ab".data) none ("t".data)
      ⟨none, none⟩ (by decide) (by decide)).2⟩

/-- C2: an upload whose Content-Type header is missing or does not contain
`text/csv` is answered with status 400 and leaves both KV slots (raw blob and
ingestion timestamp) exactly as they were. -/
theorem claim2_reject :
    ∀ (ctype : Option Str) (body : Str) (hdrTs : Option Str) (snow : Str)
      (st : Store),
      (ctype = none ∨
        ∃ ct, ctype = some ct ∧ jsIncludes ct ("text/csv".data) = false) →
      (uploadHandler ctype body hdrTs snow st).1 = st ∧
      (uploadHandler ctype body hdrTs snow st).2.status = 400 := by
  intro ctype body hdrTs snow st h
  rcases h with h | ⟨ct, hct, hinc⟩
  · subst h
    simp [uploadHandler, jsTruthyOpt]
  · subst hct
    simp [uploadHandler, jsTruthyOpt, hinc]

/-- C2, witness: a concrete JSON upload is rejected with the store intact. -/
theorem claim2_reject_witness :
    (some ("application/json".data) = (none : Option Str) ∨
      ∃ ct, some ("application/json".data) = some ct ∧
        jsIncludes ct ("text/csv".data) = false) ∧
    (uploadHandler (some ("application/json".data)) ("a".data) none ("t".data)
      ⟨some ("old".data), none⟩).1 = ⟨some ("old".data), none⟩ ∧
    (uploadHandler (some ("application/json".data)) ("a".data) none ("t".data)
      ⟨some ("old".data), none⟩).2.status = 400 :=
  ⟨Or.inr ⟨_, rfl, by decide⟩,
    claim2_reject _ _ none ("t".data) _ (Or.inr ⟨_, rfl, by decide⟩)⟩

/-- Nearest-tenth property of the non-negative half-up rounding. -/
theorem halfUpNat_near (a E : ℕ) (hE : 0 < E) :
    |((((20 * a + E) / (2 * E) : ℕ) : ℚ) / 10 - (a : ℚ) / (E : ℚ))| ≤ 1 / 20 := by
  set h : ℕ := (20 * a + E) / (2 * E) with hh
  have h2E : 0 < 2 * E := by omega
  have hdm : 2 * E * h + (20 * a + E) % (2 * E) = 20 * a + E := by
    rw [hh]
    exact Nat.div_add_mod _ _
  have hlt : (20 * a + E) % (2 * E) < 2 * E := Nat.mod_lt _ h2E
  have hEQ : (0 : ℚ) < (E : ℚ) := by exact_mod_cast hE
  have key : |2 * (E : ℚ) * (h : ℚ) - 20 * (a : ℚ)| ≤ (E : ℚ) := by
    have hdmQ : 2 * (E : ℚ) * (h : ℚ) + (((20 * a + E) % (2 * E) : ℕ) : ℚ) =
        20 * (a : ℚ) + (E : ℚ) := by exact_mod_cast hdm
    have hltQ : (((20 * a + E) % (2 * E) : ℕ) : ℚ) < 2 * (E : ℚ) := by
      exact_mod_cast hlt
    have hge : (0 : ℚ) ≤ (((20 * a + E) % (2 * E) : ℕ) : ℚ) := by positivity
    rw [abs_le]
    constructor
    · linarith
    · linarith
  have hrw : ((h : ℚ)) / 10 - (a : ℚ) / (E : ℚ) =
      (2 * (E : ℚ) * (h : ℚ) - 20 * (a : ℚ)) / (20 * (E : ℚ)) := by
    field_simp
    ring
  have hden : |20 * (E : ℚ)| = 20 * (E : ℚ) :=
    abs_of_pos (mul_pos (by norm_num) hEQ)
  rw [hrw, abs_div, hden, div_le_div_iff₀ (mul_pos (by norm_num) hEQ)
    (by norm_num : (0 : ℚ) < 20)]
  nlinarith [key]

/-- The stored tenths are the cell value rounded to one decimal place: the
rounded value lies within half a tenth of the exact parsed value. -/
theorem roundTenths_near (d : Dec) :
    |((roundTenths d : Int) : ℚ) / 10 - d.toRat| ≤ 1 / 20 := by
  have hE : 0 < 10 ^ d.e := Nat.pos_pow_of_pos _ (by norm_num)
  have hcast : ((10 : ℚ)) ^ d.e = ((10 ^ d.e : ℕ) : ℚ) := by push_cast; ring
  have habs := halfUpNat_near d.m.natAbs (10 ^ d.e) hE
  rcases le_or_lt 0 d.m with hm | hm
  · have h1 : ((d.m.natAbs : ℚ)) = (d.m : ℚ) := by
      rw [Int.cast_natAbs, abs_of_nonneg hm]
    have h2 : ((roundTenths d : Int) : ℚ) =
        (((20 * d.m.natAbs + 10 ^ d.e) / (2 * 10 ^ d.e) : ℕ) : ℚ) := by
      simp only [roundTenths]
      rw [if_neg (not_lt.mpr hm), Int.cast_natCast]
    rw [h2, Dec.toRat, hcast, ← h1]
    exact habs
  · have h1 : ((d.m.natAbs : ℚ)) = -(d.m : ℚ) := by
      rw [Int.cast_natAbs, abs_of_neg hm, Int.cast_neg]
    have h2 : ((roundTenths d : Int) : ℚ) =
        -(((20 * d.m.natAbs + 10 ^ d.e) / (2 * 10 ^ d.e) : ℕ) : ℚ) := by
      simp only [roundTenths]
      rw [if_pos hm, Int.cast_neg, Int.cast_natCast]
    have h3 : d.toRat = -(((d.m.natAbs : ℚ)) / ((10 ^ d.e : ℕ) : ℚ)) := by
      rw [Dec.toRat, hcast, h1]
      ring
    rw [h2, h3]
    rw [show -((((20 * d.m.natAbs + 10 ^ d.e) / (2 * 10 ^ d.e) : ℕ) : ℚ)) / 10 -
        -(((d.m.natAbs : ℚ)) / ((10 ^ d.e : ℕ) : ℚ)) =
        -(((((20 * d.m.natAbs + 10 ^ d.e) / (2 * 10 ^ d.e) : ℕ) : ℚ)) / 10 -
          ((d.m.natAbs : ℚ)) / ((10 ^ d.e : ℕ) : ℚ)) from by ring]
    rw [abs_neg]
    exact habs

/-- C3: a numeric cell that fails to parse is stored as null (`none`), never
`NaN`, without preventing the row from being emitted; a cell that parses is
stored rounded to one decimal place.  The row is emitted whenever the line is
non-blank and the (required) sunset cell is readable, and each of its seven
numeric fields is exactly `safe` of the corresponding cell. -/
theorem claim3_nullsafe :
    ∀ (dateParse : Str → Option Int) (now : Int) (header : List Str)
      (st : ParseState) (l : Str) (sv : Str),
      jsTrim l ≠ [] →
      jsGet (jsSplit ',' l) (jsIndexOf header ("sunset".data)) = some sv →
      (∃ st', step dateParse now header st l = .ok st' ∧
        st'.rows = st.rows ++ [rowOf dateParse header l]) ∧
      ((rowOf dateParse header l).tmean =
          safe (jsGet (jsSplit ',' l) (jsIndexOf header ("tmean".data))) ∧
        (rowOf dateParse header l).tprophet =
          safe (jsGet (jsSplit ',' l) (jsIndexOf header ("tprophet".data))) ∧
        (rowOf dateParse header l).tmin =
          safe (jsGet (jsSplit ',' l) (jsIndexOf header ("tmin".data))) ∧
        (rowOf dateParse header l).tmax =
          safe (jsGet (jsSplit ',' l) (jsIndexOf header ("tmax".data))) ∧
        (rowOf dateParse header l).tpmin =
          safe (jsGet (jsSplit ',' l) (jsIndexOf header ("tpmin".data))) ∧
        (rowOf dateParse header l).tpmax =
          safe (jsGet (jsSplit ',' l) (jsIndexOf header ("tpmax".data))) ∧
        (rowOf dateParse header l).trend =
          safe (jsGet (jsSplit ',' l) (jsIndexOf header ("trend-weekly".data)))) ∧
      (∀ s : Str,
        (jsParseFloat s = none → safe (some s) = none) ∧
        (∀ d : Dec, jsParseFloat s = some d →
          safe (some s) = some (roundTenths d) ∧
          |((roundTenths d : Int) : ℚ) / 10 - d.toRat| ≤ 1 / 20)) ∧
      safe none = none := by
  intro dateParse now header st l sv hblank hsun
  refine ⟨?_, ⟨rfl, rfl, rfl, rfl, rfl, rfl, rfl⟩, ?_, rfl⟩
  · simp only [step, hsun, if_neg hblank]
    refine ⟨_, rfl, ?_⟩
    split <;> split <;> split <;> (try split) <;> rfl
  · intro s
    constructor
    · intro hp
      simp [safe, hp]
    · intro d hd
      exact ⟨by simp [safe, hd], roundTenths_near d⟩

/-- C3, witness: a row whose `tmean` cell is unparsable is still emitted,
with `none` in the `tmean` field. -/
theorem claim3_nullsafe_witness :
    jsTrim ("a,xyz,false".data) ≠ [] ∧
    (∃ st', step (fun _ => some 0) 0
        [("timestamp".data), ("tmean".data), ("sunset".data)] initState
        ("a,xyz,false".data) = .ok st' ∧
      st'.rows = initState.rows ++
        [rowOf (fun _ => some 0)
          [("timestamp".data), ("tmean".data), ("sunset".data)]
          ("a,xyz,false".data)]) ∧
    (rowOf (fun _ => some 0)
      [("timestamp".data), ("tmean".data), ("sunset".data)]
      ("a,xyz,false".data)).tmean = none :=
  ⟨by decide,
    (claim3_nullsafe (fun _ => some 0) 0
      [("timestamp".data), ("tmean".data), ("sunset".data)] initState
      ("a,xyz,false".data) ("false".data) (by decide) (by decide)).1,
    by decide⟩

/-- A blank line leaves the parse state untouched. -/
theorem step_blank (d : Str → Option Int) (now : Int) (header : List Str)
    (st : ParseState) (l : Str) (hb : jsTrim l = []) :
    step d now header st l = .ok st := by
  simp [step, hb]

/-- A non-blank line whose sunset cell is unreadable (missing column or too
few cells) throws, aborting the whole parse. -/
theorem step_error (d : Str → Option Int) (now : Int) (header : List Str)
    (st : ParseState) (l : Str) (hb : jsTrim l ≠ [])
    (hsun : jsGet (jsSplit ',' l) (jsIndexOf header ("sunset".data)) = none) :
    step d now header st l = .error () := by
  simp [step, hb, hsun]

/-- Full characterisation of one successful line step. -/
theorem step_char (d : Str → Option Int) (now : Int) (header : List Str)
    (st : ParseState) (l : Str) (sv : Str) (hb : jsTrim l ≠ [])
    (hsun : jsGet (jsSplit ',' l) (jsIndexOf header ("sunset".data)) = some sv) :
    step d now header st l = .ok
      { latestPastTs :=
          if jsLe ((jsGet (jsSplit ',' l)
              (jsIndexOf header ("timestamp".data))).bind d) now then
            (jsGet (jsSplit ',' l) (jsIndexOf header ("timestamp".data))).bind d
          else st.latestPastTs
        sunset :=
          if jsToLower sv = "true".data then
            st.sunset ++ [(jsGet (jsSplit ',' l)
              (jsIndexOf header ("timestamp".data))).bind d]
          else st.sunset
        sunrise :=
          match jsGet (jsSplit ',' l) (jsIndexOf header ("sunrise".data)) with
          | some rv =>
            if rv ≠ [] ∧ jsToLower rv = "true".data then
              st.sunrise ++ [(jsGet (jsSplit ',' l)
                (jsIndexOf header ("timestamp".data))).bind d]
            else st.sunrise
          | none => st.sunrise
        rows := st.rows ++ [rowOf d header l] } := by
  simp only [step, if_neg hb, hsun]
  split <;> split <;> split <;> (try split) <;> rfl

/-- A successful step either skips a blank line or appends exactly the row of
its own line. -/
theorem step_rows (d : Str → Option Int) (now : Int) (header : List Str)
    (st : ParseState) (l : Str) (st2 : ParseState)
    (h : step d now header st l = .ok st2) :
    (jsTrim l = [] ∧ st2 = st) ∨
    (jsTrim l ≠ [] ∧ st2.rows = st.rows ++ [rowOf d header l]) := by
  by_cases hb : jsTrim l = []
  · left
    refine ⟨hb, ?_⟩
    rw [step_blank d now header st l hb] at h
    exact (Except.ok.inj h).symm
  · right
    refine ⟨hb, ?_⟩
    cases hsun : jsGet (jsSplit ',' l) (jsIndexOf header ("sunset".data)) with
    | none =>
      rw [step_error d now header st l hb hsun] at h
      exact absurd h (by simp)
    | some sv =>
      rw [step_char d now header st l sv hb hsun] at h
      rw [← Except.ok.inj h]

/-- Rows produced by the fold are exactly the rows of the non-blank lines, in
order, each parsed from its own cells alone. -/
theorem fold_rows (d : Str → Option Int) (now : Int) (header : List Str) :
    ∀ (ls : List Str) (st st2 : ParseState),
      List.foldlM (step d now header) st ls = .ok st2 →
      st2.rows = st.rows ++
        (ls.filter (fun l => !decide (jsTrim l = []))).map (rowOf d header) := by
  intro ls
  induction ls with
  | nil =>
    intro st st2 h
    simp only [List.foldlM_nil] at h
    rw [← Except.ok.inj h]
    simp
  | cons l t ih =>
    intro st st2 h
    rw [List.foldlM_cons] at h
    cases hstep : step d now header st l with
    | error e =>
      rw [hstep] at h
      exact Except.noConfusion h
    | ok s1 =>
      rw [hstep] at h
      have h2 : List.foldlM (step d now header) s1 t = .ok st2 := h
      have hr := ih s1 st2 h2
      rcases step_rows d now header st l s1 hstep with ⟨hb, rfl⟩ | ⟨hb, hrow⟩
      · rw [hr]
        simp [List.filter_cons, hb]
      · rw [hr, hrow]
        simp [List.filter_cons, hb]

/-- C4, counterexample: with the two-column header `timestamp,sunset`, the
second data row carries three cells, yet the parse emits both rows — the
mismatched row is not excluded from the parsed sequence. -/
theorem claim4_cex :
    (parseCSV (fun s => if s = "a".data then some 100 else none) 200
      ("timestamp,sunset\na,false\na,false,zzz".data)).map
        (fun st => st.rows.length) = .ok 2 := by
  decide

/-- C4, amended: no row is skipped for a column-count mismatch.  Every
non-blank data line of a successful parse contributes exactly one row, in
order, and each row is computed from the cells of its own line alone (extra
cells are ignored and missing cells read as `undefined`), so other rows keep
their alignment; a row whose cells do not reach the sunset column instead
aborts the whole parse. -/
theorem claim4_rows :
    ∀ (d : Str → Option Int) (now : Int) (csv : Str) (st2 : ParseState)
      (h : Str) (ls : List Str),
      jsSplit '\n' (jsTrim csv) = h :: ls →
      parseCSV d now csv = .ok st2 →
      st2.rows =
        (ls.filter (fun l => !decide (jsTrim l = []))).map
          (rowOf d (jsSplit ',' h)) := by
  intro d now csv st2 h ls hsplit hok
  rw [parseCSV, hsplit] at hok
  have := fold_rows d now (jsSplit ',' h) ls initState st2 hok
  simpa [initState] using this

/-- C4, witness: a concrete successful parse whose row list is exactly the
map over its non-blank data lines. -/
theorem claim4_rows_witness :
    jsSplit '\n' (jsTrim ("timestamp,sunset\na,false\na,false,zzz".data)) =
      ("timestamp,sunset".data) ::
        [("a,false".data), ("a,false,zzz".data)] ∧
    parseCSV (fun s => if s = "a".data then some 100 else none) 200
        ("timestamp,sunset\na,false\na,false,zzz".data) =
      .ok ⟨some 100, [], [],
        [⟨some 100, none, none, none, none, none, none, none⟩,
         ⟨some 100, none, none, none, none, none, none, none⟩]⟩ ∧
    (⟨some 100, [], [],
        [⟨some 100, none, none, none, none, none, none, none⟩,
         ⟨some 100, none, none, none, none, none, none, none⟩]⟩ :
      ParseState).rows =
      ([("a,false".data), ("a,false,zzz".data)].filter
        (fun l => !decide (jsTrim l = []))).map
        (rowOf (fun s => if s = "a".data then some 100 else none)
          (jsSplit ',' ("timestamp,sunset".data))) :=
  ⟨by decide, by decide,
    claim4_rows (fun s => if s = "a".data then some 100 else none) 200
      ("timestamp,sunset\na,false\na,false,zzz".data) _
      ("timestamp,sunset".data)
      [("a,false".data), ("a,false,zzz".data)] (by decide) (by decide)⟩

/-- Case-insensitive equality with a non-empty word forces a non-empty cell. -/
theorem jsToLower_true_ne_nil {rv : Str} (h : jsToLower rv = "true".data) :
    rv ≠ [] := by
  intro hrv
  subst hrv
  simp [jsToLower] at h

/-- C5, counterexample: a table whose header has no sunset column does not
parse its row with a false flag — the whole parse throws instead. -/
theorem claim5_cex :
    parseCSV (fun _ => some 0) 0 ("timestamp\nx".data) = .error () := by
  decide

/-- C5, amended: when the sunset cell is present the sunset flag is set
exactly on a case-insensitive match with `true`, and likewise for a present
sunrise cell; an absent sunrise column leaves the flag false with the row
still parsed; but an absent sunset column (or a row too short to reach it)
aborts the parse with an error instead of defaulting to false. -/
theorem claim5_flags :
    ∀ (d : Str → Option Int) (now : Int) (header : List Str)
      (st : ParseState) (l : Str),
      jsTrim l ≠ [] →
      (∀ sv, jsGet (jsSplit ',' l) (jsIndexOf header ("sunset".data)) = some sv →
        ∃ st2, step d now header st l = .ok st2 ∧
          st2.rows = st.rows ++ [rowOf d header l] ∧
          st2.sunset = (if jsToLower sv = "true".data
            then st.sunset ++ [(jsGet (jsSplit ',' l)
              (jsIndexOf header ("timestamp".data))).bind d]
            else st.sunset) ∧
          (jsGet (jsSplit ',' l) (jsIndexOf header ("sunrise".data)) = none →
            st2.sunrise = st.sunrise) ∧
          (∀ rv,
            jsGet (jsSplit ',' l) (jsIndexOf header ("sunrise".data)) = some rv →
            st2.sunrise = (if jsToLower rv = "true".data
              then st.sunrise ++ [(jsGet (jsSplit ',' l)
                (jsIndexOf header ("timestamp".data))).bind d]
              else st.sunrise))) ∧
      (jsGet (jsSplit ',' l) (jsIndexOf header ("sunset".data)) = none →
        step d now header st l = .error ()) := by
  intro d now header st l hb
  constructor
  · intro sv hsun
    refine ⟨_, step_char d now header st l sv hb hsun, rfl, rfl, ?_, ?_⟩
    · intro hget
      simp only [hget]
    · intro rv hget
      simp only [hget]
      by_cases hrv : jsToLower rv = "true".data
      · rw [if_pos ⟨jsToLower_true_ne_nil hrv, hrv⟩, if_pos hrv]
      · rw [if_neg (fun hc => hrv hc.2), if_neg hrv]
  · intro hsun
    exact step_error d now header st l hb hsun

/-- C5, witness: a row with sunset cell `TRUE` and no sunrise column parses,
records the sunset instant and leaves the sunrise list unchanged. -/
theorem claim5_flags_witness :
    jsTrim ("a,TRUE".data) ≠ [] ∧
    (∃ st2, step (fun _ => some 7) 0
        [("timestamp".data), ("sunset".data)] initState ("a,TRUE".data) =
        .ok st2 ∧
      st2.rows = initState.rows ++
        [rowOf (fun _ => some 7) [("timestamp".data), ("sunset".data)]
          ("a,TRUE".data)] ∧
      st2.sunset = (if jsToLower ("TRUE".data) = "true".data
        then initState.sunset ++ [(jsGet (jsSplit ',' ("a,TRUE".data))
          (jsIndexOf [("timestamp".data), ("sunset".data)]
            ("timestamp".data))).bind (fun _ => some 7)]
        else initState.sunset) ∧
      (jsGet (jsSplit ',' ("a,TRUE".data))
          (jsIndexOf [("timestamp".data), ("sunset".data)] ("sunrise".data)) =
            none →
        st2.sunrise = initState.sunrise) ∧
      (∀ rv,
        jsGet (jsSplit ',' ("a,TRUE".data))
          (jsIndexOf [("timestamp".data), ("sunset".data)] ("sunrise".data)) =
            some rv →
        st2.sunrise = (if jsToLower rv = "true".data
          then initState.sunrise ++ [(jsGet (jsSplit ',' ("a,TRUE".data))
            (jsIndexOf [("timestamp".data), ("sunset".data)]
              ("timestamp".data))).bind (fun _ => some 7)]
          else initState.sunrise))) :=
  ⟨by decide,
    (claim5_flags (fun _ => some 7) 0 [("timestamp".data), ("sunset".data)]
      initState ("a,TRUE".data) (by decide)).1 ("TRUE".data) (by decide)⟩

/-- C6: the night duration is the single global value `24h - (lastSunset -
lastSunrise)` when that day duration lies strictly between 0 and 24 hours and
exactly 12 hours otherwise (in particular when either instant list is empty),
and every sunset instant `s` yields the band from `s` to `s + nightDuration`. -/
theorem claim6_night :
    ∀ (sunrise sunset : List (Option Int)),
      (∀ lr ls : Int,
        sunrise.getLast? = some (some lr) →
        sunset.getLast? = some (some ls) →
        (0 < ls - lr ∧ ls - lr < 86400000 →
          nightMs sunrise sunset = 86400000 - (ls - lr)) ∧
        (¬(0 < ls - lr ∧ ls - lr < 86400000) →
          nightMs sunrise sunset = 43200000)) ∧
      (sunrise = [] ∨ sunset = [] → nightMs sunrise sunset = 43200000) ∧
      nightBands sunrise sunset =
        sunset.map (fun s => (s, jsAdd2 s (nightMs sunrise sunset))) ∧
      (∀ v : Int, some v ∈ sunset →
        (some v, some (v + nightMs sunrise sunset)) ∈ nightBands sunrise sunset) := by
  intro sunrise sunset
  refine ⟨?_, ?_, rfl, ?_⟩
  · intro lr ls hlr hls
    constructor
    · intro hin
      simp only [nightMs, hlr, hls, jsSub2]
      rw [if_pos hin, if_neg (by omega)]
    · intro hout
      simp only [nightMs, hlr, hls, jsSub2]
      rw [if_neg hout, if_pos rfl]
  · intro hemp
    rcases hemp with hr | hs
    · subst hr
      simp [nightMs]
    · subst hs
      simp only [nightMs, List.getLast?_nil]
      cases sunrise.getLast? <;> simp
  · intro v hv
    simp only [nightBands, List.mem_map]
    exact ⟨some v, hv, by simp [jsAdd2]⟩

/-- C6, witness: with last sunrise at 6h and last sunset at 20h the night is
10 hours, and a series with no sunrise falls back to 12 hours. -/
theorem claim6_night_witness :
    ([some 21600000] : List (Option Int)).getLast? = some (some 21600000) ∧
    ([some 72000000] : List (Option Int)).getLast? = some (some 72000000) ∧
    (0 < (72000000 : Int) - 21600000 ∧ (72000000 : Int) - 21600000 < 86400000) ∧
    nightMs [some 21600000] [some 72000000] = 86400000 - (72000000 - 21600000) ∧
    nightMs [] [some 72000000] = 43200000 :=
  ⟨by decide, by decide, by decide,
    ((claim6_night [some 21600000] [some 72000000]).1 21600000 72000000
      (by decide) (by decide)).1 (by decide),
    (claim6_night [] [some 72000000]).2.1 (Or.inl rfl)⟩

/-- Invariant of the `reduce` loop of `closestIdx`: processing the suffix of
the array starting at `i` with a best index that is minimal for the prefix
yields a globally minimal index, earliest among the minimizers. -/
theorem closestIdxGo_spec (arr : List Int) (t : Int) :
    ∀ (l : List (Option Int)) (i best : Nat),
      (∀ k, l.get? k = (arr.map some).get? (i + k)) →
      best < arr.length → best ≤ i →
      (∀ j, j < i → (arr.getD best 0 - t).natAbs ≤ (arr.getD j 0 - t).natAbs) →
      (∀ j, j < i → (arr.getD j 0 - t).natAbs = (arr.getD best 0 - t).natAbs →
        best ≤ j) →
      closestIdxGo (arr.map some) t l i best < arr.length ∧
      (∀ j, j < arr.length →
        (arr.getD (closestIdxGo (arr.map some) t l i best) 0 - t).natAbs ≤
          (arr.getD j 0 - t).natAbs) ∧
      (∀ j, j < arr.length →
        (arr.getD j 0 - t).natAbs =
          (arr.getD (closestIdxGo (arr.map some) t l i best) 0 - t).natAbs →
        closestIdxGo (arr.map some) t l i best ≤ j) := by
  intro l
  induction l with
  | nil =>
    intro i best H hbl hbi hmin htie
    have hlen : arr.length ≤ i := by
      have h0 := H 0
      simp only [List.get?_nil, Nat.add_zero] at h0
      have h1 := List.get?_eq_none.mp h0.symm
      simpa using h1
    simp only [closestIdxGo]
    exact ⟨hbl, fun j hj => hmin j (lt_of_lt_of_le hj hlen),
      fun j hj he => htie j (lt_of_lt_of_le hj hlen) he⟩
  | cons ts rest ih =>
    intro i best H hbl hbi hmin htie
    have h0 := H 0
    simp only [List.get?_cons_zero, Nat.add_zero, List.get?_map] at h0
    cases harr : arr.get? i with
    | none =>
      rw [harr] at h0
      exact absurd h0 (by simp)
    | some x =>
      rw [harr] at h0
      have hts : ts = some x := by simpa using h0
      obtain ⟨hi, hx⟩ := List.get?_eq_some.mp harr
      have hgi : arr.getD i 0 = x := by
        rw [List.getD_eq_get?, harr]
        rfl
      have hgb : arr.get? best = some (arr.getD best 0) := by
        rw [List.getD_eq_get?, List.get?_eq_get hbl]
        rfl
      have hjget : jsGetTs (arr.map some) best = some (arr.getD best 0) := by
        simp only [jsGetTs, List.get?_map, hgb]
        rfl
      have H2 : ∀ k, rest.get? k = (arr.map some).get? (i + 1 + k) := by
        intro k
        have h1 := H (k + 1)
        rw [List.get?_cons_succ] at h1
        rw [h1]
        congr 1
        omega
      simp only [closestIdxGo, hts, hjget, jsAbsSub, jsLtAbs,
        decide_eq_true_eq]
      by_cases hc : (x - t).natAbs < (arr.getD best 0 - t).natAbs
      · rw [if_pos hc]
        apply ih (i + 1) i H2 hi (Nat.le_succ i)
        · intro j hj
          rcases Nat.lt_succ_iff_lt_or_eq.mp hj with hj | rfl
          · have h1 := hmin j hj
            rw [hgi]
            omega
          · rw [hgi]
        · intro j hj he
          rcases Nat.lt_succ_iff_lt_or_eq.mp hj with hj | rfl
          · have h1 := hmin j hj
            rw [hgi] at he
            omega
          · exact le_refl _
      · rw [if_neg hc]
        apply ih (i + 1) best H2 hbl (le_trans hbi (Nat.le_succ i))
        · intro j hj
          rcases Nat.lt_succ_iff_lt_or_eq.mp hj with hj | rfl
          · exact hmin j hj
          · rw [hgi]
            omega
        · intro j hj he
          rcases Nat.lt_succ_iff_lt_or_eq.mp hj with hj | rfl
          · exact htie j hj he
          · exact le_trans hbi (le_refl _)

/-- C7: on a non-empty list of valid timestamps, `closestIdx` returns an
in-range index whose distance to the target is minimal, and among all indices
achieving that minimum it returns the smallest, so an exact midpoint tie
resolves to the earlier row. -/
theorem claim7_closest :
    ∀ (arr : List Int) (t : Int), arr ≠ [] →
      closestIdx (arr.map some) t < arr.length ∧
      (∀ j, j < arr.length →
        (arr.getD (closestIdx (arr.map some) t) 0 - t).natAbs ≤
          (arr.getD j 0 - t).natAbs) ∧
      (∀ j, j < arr.length →
        (arr.getD j 0 - t).natAbs =
          (arr.getD (closestIdx (arr.map some) t) 0 - t).natAbs →
        closestIdx (arr.map some) t ≤ j) := by
  intro arr t harr
  have hpos : 0 < arr.length := List.length_pos.mpr harr
  exact closestIdxGo_spec arr t (arr.map some) 0 0 (fun k => by simp)
    hpos (le_refl 0) (fun j hj => absurd hj (Nat.not_lt_zero j))
    (fun j hj _ => absurd hj (Nat.not_lt_zero j))

/-- C7, witness: with rows at 0 and 60 and the target exactly at the midpoint
30, the lookup stays within range, is distance-minimal, and the tie resolves
to the earlier index (indeed index 0). -/
theorem claim7_closest_witness :
    (([0, 60] : List Int) ≠ []) ∧
    (closestIdx ([0, 60].map some) 30 < 2 ∧
      (∀ j, j < ([0, 60] : List Int).length →
        (([0, 60] : List Int).getD (closestIdx ([0, 60].map some) 30) 0 -
            30).natAbs ≤
          (([0, 60] : List Int).getD j 0 - 30).natAbs) ∧
      (∀ j, j < ([0, 60] : List Int).length →
        (([0, 60] : List Int).getD j 0 - 30).natAbs =
          (([0, 60] : List Int).getD (closestIdx ([0, 60].map some) 30) 0 -
            30).natAbs →
        closestIdx ([0, 60].map some) 30 ≤ j)) ∧
    closestIdx ([0, 60].map some) 30 = 0 :=
  ⟨by decide,
    by
      have h := claim7_closest [0, 60] 30 (by decide)
      simpa using h,
    by decide⟩

/-- A successful offset search returns an instant whose local wall clock
matches the requested hour, minute and day of month, and that instant is the
`Date.UTC` value of one of the tried guesses. -/
theorem findGuess_char (tz : TzFmt) (y : Int) (m0 d h mi : Nat) :
    ∀ (gs : List Int) (t : Int),
      findGuess tz y m0 d h mi gs = some t →
      (tz t).hour = h ∧ (tz t).minute = mi ∧ (tz t).day = d ∧
      ∃ g ∈ gs, t = dateUTCms y m0 d ((h : Int) - g) mi := by
  intro gs
  induction gs with
  | nil =>
    intro t ht
    simp [findGuess] at ht
  | cons g rest ih =>
    intro t ht
    simp only [findGuess] at ht
    split at ht
    · rename_i hcond
      obtain rfl := Option.some.inj ht
      exact ⟨hcond.1, hcond.2.1, hcond.2.2,
        ⟨g, List.mem_cons_self g rest, rfl⟩⟩
    · obtain ⟨h1, h2, h3, g2, hg2, ht2⟩ := ih t ht
      exact ⟨h1, h2, h3, ⟨g2, List.mem_cons_of_mem g hg2, ht2⟩⟩

/-- C8: the twilight instant is the last sunset instant when one exists;
otherwise it is the instant whose wall clock in the observation timezone
reads 18:00 on the current day, found by the brute-force search over the
bounded guess window, falling back to now when no guess matches. -/
theorem claim8_twilight :
    ∀ (tz : TzFmt) (nowMs : Int) (sunset : List (Option Int)),
      (∀ s, sunset.getLast? = some s → twilightUTC tz nowMs sunset = s) ∧
      (sunset = [] →
        (∀ t, findGuess tz (tz nowMs).year ((tz nowMs).month - 1)
            (tz nowMs).day 18 0 guessList = some t →
          twilightUTC tz nowMs sunset = some t ∧
          (tz t).hour = 18 ∧ (tz t).minute = 0 ∧
          (tz t).day = (tz nowMs).day ∧
          ∃ g ∈ guessList,
            t = dateUTCms (tz nowMs).year ((tz nowMs).month - 1)
              (tz nowMs).day ((18 : Int) - g) 0) ∧
        (findGuess tz (tz nowMs).year ((tz nowMs).month - 1)
            (tz nowMs).day 18 0 guessList = none →
          twilightUTC tz nowMs sunset = some nowMs)) := by
  intro tz nowMs sunset
  constructor
  · intro s hs
    simp [twilightUTC, hs]
  · intro hemp
    subst hemp
    constructor
    · intro t ht
      obtain ⟨h1, h2, h3, hex⟩ :=
        findGuess_char tz (tz nowMs).year ((tz nowMs).month - 1)
          (tz nowMs).day 18 0 guessList t ht
      refine ⟨?_, h1, h2, h3, hex⟩
      simp [twilightUTC, santiagoLocalTimeToUTC, ht]
    · intro ht
      simp [twilightUTC, santiagoLocalTimeToUTC, ht]

/-- C8, witness: with a constant formatter the first guess matches, the
series without sunsets takes the search result, and its local view reads
18:00 on the current day of month. -/
theorem claim8_twilight_witness :
    findGuess (fun _ => ⟨2024, 5, 10, 18, 0⟩) 2024 4 10 18 0 guessList =
      some (dateUTCms 2024 4 10 34 0) ∧
    (twilightUTC (fun _ => ⟨2024, 5, 10, 18, 0⟩) 0 [] =
        some (dateUTCms 2024 4 10 34 0) ∧
      ((fun (_ : Int) => (⟨2024, 5, 10, 18, 0⟩ : LocalView))
        (dateUTCms 2024 4 10 34 0)).hour = 18 ∧
      ((fun (_ : Int) => (⟨2024, 5, 10, 18, 0⟩ : LocalView))
        (dateUTCms 2024 4 10 34 0)).minute = 0 ∧
      ((fun (_ : Int) => (⟨2024, 5, 10, 18, 0⟩ : LocalView))
        (dateUTCms 2024 4 10 34 0)).day = 10 ∧
      ∃ g ∈ guessList,
        dateUTCms 2024 4 10 34 0 = dateUTCms 2024 4 10 ((18 : Int) - g) 0) :=
  ⟨by decide,
    ((claim8_twilight (fun _ => ⟨2024, 5, 10, 18, 0⟩) 0 []).2 rfl).1
      (dateUTCms 2024 4 10 34 0) (by decide)⟩

/-- C9: the code substitutes zero for a null in the uncertainty subtraction.
With `tpmax` unparsable (null) and `tpmin = -3.0`, the uncertainty evaluates
to `0 - (-3.0) = 3.0` (30 tenths), which is finite and positive, so the page
displays it instead of treating it as unavailable. -/
theorem claim9_nullzero :
    safe (some ("abc".data)) = none ∧
    safe (some ("-3.0".data)) = some (-30) ∧
    uncTwilight none (some (-30)) = 30 ∧
    uncShown none (some (-30)) = true := by
  decide

/-- The last element of a list sorted by `≤` bounds every element. -/
theorem sorted_le_getLast? :
    ∀ (l : List Int), l.Sorted (· ≤ ·) → ∀ v : Int, l.getLast? = some v →
      ∀ u ∈ l, u ≤ v := by
  intro l
  induction l with
  | nil =>
    intro _ v hv
    simp at hv
  | cons a t ih =>
    intro hs v hv u hu
    cases t with
    | nil =>
      simp at hv hu
      omega
    | cons b t2 =>
      rw [List.getLast?_cons_cons] at hv
      rcases List.mem_cons.mp hu with rfl | hu2
      · have hvmem : v ∈ b :: t2 := by
          obtain ⟨hne, hv2⟩ :=
            List.mem_getLast?_eq_getLast (l := b :: t2) (x := v) hv
          rw [hv2]
          exact List.getLast_mem hne
        exact (List.sorted_cons.mp hs).1 v hvmem
      · exact ih (List.sorted_cons.mp hs).2 v hv u hu2

/-- One successful step preserves the invariant that `latestPastTs` is the
last past timestamp of the rows emitted so far. -/
theorem step_latest (d : Str → Option Int) (now : Int) (header : List Str)
    (st : ParseState) (l : Str) (st2 : ParseState)
    (h : step d now header st l = .ok st2)
    (hinv : st.latestPastTs =
      (((st.rows.map Row.ts).filter (fun ts => jsLe ts now)).getLast?).join) :
    st2.latestPastTs =
      (((st2.rows.map Row.ts).filter (fun ts => jsLe ts now)).getLast?).join := by
  by_cases hb : jsTrim l = []
  · rw [step_blank d now header st l hb] at h
    rw [← Except.ok.inj h]
    exact hinv
  · cases hsun : jsGet (jsSplit ',' l) (jsIndexOf header ("sunset".data)) with
    | none =>
      rw [step_error d now header st l hb hsun] at h
      exact absurd h (by simp)
    | some sv =>
      rw [step_char d now header st l sv hb hsun] at h
      rw [← Except.ok.inj h]
      have hrts : (rowOf d header l).ts =
          (jsGet (jsSplit ',' l) (jsIndexOf header ("timestamp".data))).bind d :=
        rfl
      simp only [List.map_append, List.map_cons, List.map_nil,
        List.filter_append, hrts]
      cases hle : jsLe ((jsGet (jsSplit ',' l)
          (jsIndexOf header ("timestamp".data))).bind d) now with
      | true =>
        simp [hle, List.filter_cons, Option.join]
      | false =>
        simp only [hle, List.filter_cons]
        simpa using hinv

/-- The fold preserves the last-past invariant along the whole line list. -/
theorem fold_latest (d : Str → Option Int) (now : Int) (header : List Str) :
    ∀ (ls : List Str) (st st2 : ParseState),
      List.foldlM (step d now header) st ls = .ok st2 →
      st.latestPastTs =
        (((st.rows.map Row.ts).filter (fun ts => jsLe ts now)).getLast?).join →
      st2.latestPastTs =
        (((st2.rows.map Row.ts).filter (fun ts => jsLe ts now)).getLast?).join := by
  intro ls
  induction ls with
  | nil =>
    intro st st2 h hinv
    simp only [List.foldlM_nil] at h
    rw [← Except.ok.inj h]
    exact hinv
  | cons l t ih =>
    intro st st2 h hinv
    rw [List.foldlM_cons] at h
    cases hstep : step d now header st l with
    | error e =>
      rw [hstep] at h
      exact Except.noConfusion h
    | ok s1 =>
      rw [hstep] at h
      exact ih s1 st2 h (step_latest d now header st l s1 hstep hinv)

/-- C10, counterexample: with rows at timestamps 100 then 0 and now = 200,
both rows are in the past; the claimed "latest row timestamp not after now"
is 100, but the code keeps the *last in table order*, 0. -/
theorem claim10_cex :
    (parseCSV
        (fun s => if s = "a".data then some 100 else
          if s = "b".data then some 0 else none) 200
        ("timestamp,sunset\na,false\nb,false".data)).map
      (fun st => (st.latestPastTs, st.rows.map Row.ts)) =
    .ok (some 0, [some 100, some 0]) := by
  decide

/-- C10, amended: the last-observed timestamp is the *last row in table
order* whose timestamp is not after now (the latest such timestamp whenever
the rows are chronologically ordered), falling back to the first row's
timestamp when no row qualifies; the badge shows the unsigned whole-minute
difference, and the feed is flagged stale exactly when the elapsed time
reaches 31 minutes (strictly more than 30 whole minutes). -/
theorem claim10_fresh :
    (∀ (d : Str → Option Int) (now : Int) (csv : Str) (st2 : ParseState),
      parseCSV d now csv = .ok st2 →
      st2.latestPastTs =
        (((st2.rows.map Row.ts).filter (fun ts => jsLe ts now)).getLast?).join) ∧
    (∀ (l : List Int) (now v : Int), l.Sorted (· ≤ ·) →
      ((((l.map some).filter (fun ts => jsLe ts now)).getLast?).join = some v) →
      v ≤ now ∧ ∀ u ∈ l, u ≤ now → u ≤ v) ∧
    (∀ (rows : List Row) (r : Row), rows.head? = some r →
      badgeTs none rows = some r.ts) ∧
    (∀ (v : Int) (rows : List Row), badgeTs (some v) rows = some (some v)) ∧
    (∀ now ts : Int, badgeMins now ts = (now - ts).natAbs / 60000 ∧
      (isStale (badgeMins now ts) = true ↔ 1860000 ≤ (now - ts).natAbs)) := by
  refine ⟨?_, ?_, ?_, ?_, ?_⟩
  · intro d now csv st2 h
    rw [parseCSV] at h
    cases hsplit : jsSplit '\n' (jsTrim csv) with
    | nil =>
      rw [hsplit] at h
      rw [← Except.ok.inj h]
      rfl
    | cons hd ls =>
      rw [hsplit] at h
      exact fold_latest d now (jsSplit ',' hd) ls initState st2 h rfl
  · intro l now v hs hv
    have hcomm : ((l.map some).filter (fun ts => jsLe ts now)) =
        (l.filter (fun u => decide (u ≤ now))).map some := by
      rw [List.filter_map]
      rfl
    rw [hcomm, List.getLast?_map] at hv
    cases hlast : (l.filter (fun u => decide (u ≤ now))).getLast? with
    | none =>
      rw [hlast] at hv
      simp [Option.join] at hv
    | some w =>
      rw [hlast] at hv
      have hwv : w = v := by
        simpa [Option.join] using hv
      rw [hwv] at hlast
      have hvmem : v ∈ l.filter (fun u => decide (u ≤ now)) := by
        obtain ⟨hne, hv2⟩ := List.mem_getLast?_eq_getLast
          (l := l.filter (fun u => decide (u ≤ now))) (x := v) hlast
        rw [hv2]
        exact List.getLast_mem hne
      have hvle : v ≤ now := by
        have := (List.mem_filter.mp hvmem).2
        simpa using this
      refine ⟨hvle, ?_⟩
      intro u hu hule
      have humem : u ∈ l.filter (fun w => decide (w ≤ now)) :=
        List.mem_filter.mpr ⟨hu, by simpa using hule⟩
      exact sorted_le_getLast? _ (hs.filter _) v hlast u humem
  · intro rows r hr
    simp [badgeTs, hr]
  · intro v rows
    rfl
  · intro now ts
    refine ⟨rfl, ?_⟩
    simp only [isStale, badgeMins, decide_eq_true_eq]
    constructor
    · intro h
      have h31 : 31 ≤ (now - ts).natAbs / 60000 := h
      have := Nat.le_div_iff_mul_le (by norm_num : 0 < 60000) |>.mp h31
      omega
    · intro h
      have : 31 ≤ (now - ts).natAbs / 60000 :=
        (Nat.le_div_iff_mul_le (by norm_num : 0 < 60000)).mpr (by omega)
      omega

/-- C10, witness: a concrete parse whose rows are out of order, with the
stale flag tripping at 31 minutes. -/
theorem claim10_fresh_witness :
    parseCSV
      (fun s => if s = "a".data then some 100 else
        if s = "b".data then some 0 else none) 200
      ("timestamp,sunset\na,false\nb,false".data) =
      .ok ⟨some 0, [], [],
        [⟨some 100, none, none, none, none, none, none, none⟩,
         ⟨some 0, none, none, none, none, none, none, none⟩]⟩ ∧
    (⟨some 0, [], [],
        [⟨some 100, none, none, none, none, none, none, none⟩,
         ⟨some 0, none, none, none, none, none, none, none⟩]⟩ :
      ParseState).latestPastTs =
      ((((⟨some 0, [], [],
        [⟨some 100, none, none, none, none, none, none, none⟩,
         ⟨some 0, none, none, none, none, none, none, none⟩]⟩ :
        ParseState).rows.map Row.ts).filter
          (fun ts => jsLe ts 200)).getLast?).join ∧
    (isStale (badgeMins 1860000 0) = true ↔ 1860000 ≤ ((1860000 : Int) - 0).natAbs) :=
  ⟨by decide,
    claim10_fresh.1
      (fun s => if s = "a".data then some 100 else
        if s = "b".data then some 0 else none) 200
      ("timestamp,sunset\na,false\nb,false".data) _ (by decide),
    (claim10_fresh.2.2.2.2 1860000 0).2⟩

end RubinWeather
